import Mathlib

/-!
# Verification of the SimplePrognoz data-preparation core

Shallow embedding of the repository files `neuralprophet/df_utils.py` and
`neuralprophet/time_dataset.py`, together with theorems settling the frozen
claims about the Validator (`check_dataframe`), ScaleEstimator
(`init_data_params`), Normalizer (`normalize`), Splitter (`split_df`),
SeasonalityFeaturizer (`fourier_series`, `seasonal_features_from_dates`) and
Tabularizer (`tabularize_univariate_datetime`).

Modelling conventions:
- a pandas DataFrame is modelled by its column lists (or a list of rows for
  the Validator, where the integer index matters); `len(df)` is the length
  of the row/column list;
- timestamps are modelled as rational or real numbers (seconds since the
  epoch 1970-01-01, matching the subtraction of `datetime(1970, 1, 1)`
  followed by `total_seconds()` in `fourier_series`);
- Python list/ndarray slicing `x[a:b]` (with clamping, and negative indices
  counting from the end) is modelled by `pyResolve`, `List.take`, `List.drop`;
- Python `int(q)` (truncation toward zero) is modelled by `pyTrunc`;
- exceptions are modelled with `Except`; `numpy` reductions `min`, `max`,
  `mean`, `std` are modelled by the corresponding folds.
-/

namespace SimplePrognoz

/-! ## Generic list helpers (Python slice semantics) -/

/-- Python slice `x[a : a+len]` for a nonnegative start: drop `a`, take `len`
(with clamping at the end of the list, as in Python). -/
def listSlice {α : Type} (x : List α) (a len : ℕ) : List α :=
  (x.drop a).take len

/-- Resolution of a (possibly negative) Python slice endpoint against a list
of length `len`: a negative index counts from the end, clamped at 0. -/
def pyResolve (len : ℕ) (k : ℤ) : ℕ :=
  if 0 ≤ k then k.toNat else len - (-k).toNat

/-- Python `int()` applied to a rational: truncation toward zero. -/
def pyTrunc (q : ℚ) : ℤ :=
  if 0 ≤ q then ((q.num.toNat / q.den : ℕ) : ℤ) else -(((((-q).num.toNat / q.den : ℕ)) : ℤ))

/-! ## Splitter: `split_df` (df_utils.py lines 174-196)

The dataframe is modelled as the list of its rows (of an arbitrary type);
`iloc[:k]`, `iloc[k:]` and `reset_index(drop=True)` become `take`/`drop` on
that list (positional indexing is intrinsic to lists, so re-indexing from
zero is the identity; the deep copies of the source are value copies here). -/

def split_df {α : Type} (df : List α) (n_lags n_forecasts : ℕ) (valid_p : ℚ)
    (inputs_overbleed : Bool) : List α × List α :=
  let n_samples : ℤ := (df.length : ℤ) - n_lags + 1 - n_forecasts
  let n_train : ℤ := n_samples - pyTrunc ((n_samples : ℚ) * valid_p)
  let split_idx_train : ℤ := n_train + n_lags
  let split_idx_val : ℤ := if inputs_overbleed then split_idx_train - n_lags else split_idx_train
  (df.take (pyResolve df.length split_idx_train),
   df.drop (pyResolve df.length split_idx_val))

/-! ## SeasonalityFeaturizer: `fourier_series`, `seasonal_features_from_dates`
(time_dataset.py lines 167-221)

A timestamp is a real number of seconds since 1970-01-01 (the code subtracts
`datetime(1970, 1, 1)` and calls `total_seconds()`), so `t_days = d / (3600*24)`.
The matrix built by `np.column_stack` over the comprehension
`[fun(2.0*(i+1)*pi*t/period) for i in range(series_order) for fun in (sin, cos)]`
is represented row-wise: row `r` interleaves `sin`/`cos` of the harmonics at
timestamp `r`. -/

/-- One period entry of the season configuration: `{period, resolution}`. -/
structure SeasonPeriod where
  period : ℝ
  resolution : ℕ

/-- Season configuration: basis type (the code compares it with the string
literal for fourier) and the named periods (an ordered dict). -/
structure SeasonConfig where
  stype : String
  periods : List (String × SeasonPeriod)

/-- Errors raised by the Tabularizer pipeline: `KeyError` from the
unconditional `df.loc[:, y_scaled]` column access, `AssertionError` from
`assert n_forecasts == 1`, and `NotImplementedError` from an unsupported
seasonality basis type. The specification groups the latter two under its
`ConfigError` taxonomy. -/
inductive TabError
  | keyError
  | assertError
  | notImplemented

noncomputable def fourier_series (dates : List ℝ) (period : ℝ) (series_order : ℕ) :
    List (List ℝ) :=
  dates.map (fun d =>
    (List.range series_order).flatMap (fun i =>
      [Real.sin (2 * ((i : ℝ) + 1) * Real.pi * (d / (3600 * 24)) / period),
       Real.cos (2 * ((i : ℝ) + 1) * Real.pi * (d / (3600 * 24)) / period)]))

/-- The loop body of `seasonal_features_from_dates`: periods with resolution 0
are skipped, a non-fourier basis type raises, fourier periods contribute their
feature matrix in order. -/
noncomputable def seasonalLoop (dates : List ℝ) (stype : String) :
    List (String × SeasonPeriod) → Except TabError (List (String × List (List ℝ)))
  | [] => .ok []
  | (name, p) :: rest =>
    if 0 < p.resolution then
      if stype = "fourier" then
        (seasonalLoop dates stype rest).map
          (fun acc => (name, fourier_series dates p.period p.resolution) :: acc)
      else .error .notImplemented
    else seasonalLoop dates stype rest

noncomputable def seasonal_features_from_dates (dates : List ℝ) (cfg : SeasonConfig) :
    Except TabError (List (String × List (List ℝ))) :=
  seasonalLoop dates cfg.stype cfg.periods

/-! ## Tabularizer: `tabularize_univariate_datetime` (time_dataset.py lines 86-164) -/

/-- A normalized table as consumed by the Tabularizer: original timestamps
`ds` (real, for the seasonality features), normalized time column `t`, and the
optional scaled-value column `y_scaled` (absent when the column is missing
from the frame). The value type is generic: the Tabularizer only slices. -/
structure NTable (α : Type) where
  ds : List ℝ
  t : List α
  y_scaled : Option (List α)

/-- The returned `(inputs, targets)` of the Tabularizer: the ordered dict
keys `time`, optional `lags`, optional `seasonalities`, and the targets. -/
structure TabOutput (α : Type) where
  time : List (List α)
  lags : Option (List (List α))
  seasonalities : Option (List (String × List (List (List ℝ))))
  targets : List (List α)

/-- Shallow embedding of `tabularize_univariate_datetime`. Notes kept close
to the source: `series = df.loc[:, y_scaled].values` runs unconditionally
(line 117) before everything else, so a missing column raises regardless of
`predict_mode`; `n_samples` may be negative, in which case `range(n_samples)`
is empty (modelled by `Int.toNat`); `np.empty_like(time)` allocates targets
of the time shape with unspecified contents, modelled by `default`. -/
noncomputable def tabularize_univariate_datetime {α : Type} [Inhabited α] (df : NTable α)
    (season_config : Option SeasonConfig) (n_lags n_forecasts : ℕ)
    (predict_mode : Bool) : Except TabError (TabOutput α) :=
  let n_samples : ℤ := (df.t.length : ℤ) - n_lags + 1 - n_forecasts
  let ns : ℕ := n_samples.toNat
  match df.y_scaled with
  | none => .error .keyError
  | some series =>
    let timeRes : Except TabError (List (List α)) :=
      if n_lags = 0 then
        if n_forecasts = 1 then .ok (df.t.map (fun v => [v]))
        else .error .assertError
      else .ok ((List.range ns).map (fun i => listSlice df.t (n_lags + i) n_forecasts))
    match timeRes with
    | .error e => .error e
    | .ok time =>
      let lags : Option (List (List α)) :=
        if 0 < n_lags then some ((List.range ns).map (fun i => listSlice series i n_lags))
        else none
      let seasRes : Except TabError (Option (List (String × List (List (List ℝ))))) :=
        match season_config with
        | none => .ok none
        | some cfg =>
          (seasonal_features_from_dates df.ds cfg).map (fun feats =>
            some (feats.map (fun p =>
              (p.1, if n_lags = 0 then p.2.map (fun row => [row])
                    else (List.range ns).map (fun i => listSlice p.2 (n_lags + i) n_forecasts)))))
      match seasRes with
      | .error e => .error e
      | .ok seas =>
        let targets : List (List α) :=
          if predict_mode then time.map (fun r => r.map (fun _ => (default : α)))
          else (List.range ns).map (fun i => listSlice series (i + n_lags) n_forecasts)
        .ok ⟨time, lags, seas, targets⟩

/-! ## Validator: `check_dataframe` (df_utils.py lines 106-171)

Here the integer row index and the in-place column coercions matter, so the
table is a list of rows carrying their pandas index, plus the index name
flag (`df.index.name == 'ds'`). Cells are modelled abstractly:
- a `ds` cell is an int64 cell, a string cell, a parsed datetime (with a
  timezone flag), or a missing value; the content of int/string cells is
  abstracted by the integer ordinal of the date they encode, so that
  `astype(str)` and `pd.to_datetime` are monotone re-taggings;
- a `y` cell is a finite number, an infinity, or a missing value
  (`pd.to_numeric` is the identity on these, as all cells are numeric).
The function returns the final state of the caller table object (mutated in
place by the `df.loc[:, ...] = ...` assignments and `df.index.name = None`)
together with the returned value; `sort_values` and `reset_index(drop=True)`
build the new returned table. `sort_values` is modelled by
`List.insertionSort` on the datetime key. Any deterministic model must pick
some order among rows with equal timestamps, and pandas (default
`kind='quicksort'`, documented as not stable) guarantees none, so the tie
order of this model is one concrete choice; the claim theorems below assert
nothing that depends on it: the fixed-point part of the idempotence claim is
stated only for outputs with strictly increasing timestamps, where every
correct sort returns the unique sorted order. -/

inductive DsCell
  | intC (n : ℤ)
  | strC (n : ℤ)
  | dtC (d : ℤ) (tz : Bool)
  | nanC
deriving DecidableEq

inductive YCell
  | num (q : ℚ)
  | infC
  | nanC
deriving DecidableEq

structure RRow where
  idx : ℤ
  ds : DsCell
  y : YCell
deriving DecidableEq

structure RawTable where
  rows : List RRow
  idxNameDs : Bool
deriving DecidableEq

inductive ChkError
  | noRows
  | fewRows
  | nanY
  | infY
  | nanDs
  | tzDs
deriving DecidableEq

def yNotNull : YCell → Bool
  | .nanC => false
  | _ => true

def yIsInf : YCell → Bool
  | .infC => true
  | _ => false

/-- Model of `pd.to_numeric` on an already-numeric cell: the identity (the column
holds numbers, infinities or missing values only in this model). -/
def pdToNumeric (y : YCell) : YCell := y

def dsIsNull : DsCell → Bool
  | .nanC => true
  | _ => false

def dsIsInt : DsCell → Bool
  | .intC _ => true
  | _ => false

def dsAstypeStr : DsCell → DsCell
  | .intC n => .strC n
  | c => c

def pdToDatetime : DsCell → DsCell
  | .intC n => .dtC n false
  | .strC n => .dtC n false
  | c => c

def dsHasTz : DsCell → Bool
  | .dtC _ tz => tz
  | _ => false

/-- The value `sort_values` compares: the datetime ordinal of the cell. -/
def dsKey : DsCell → ℤ
  | .intC n => n
  | .strC n => n
  | .dtC d _ => d
  | .nanC => 0

def rowLE (a b : RRow) : Prop := dsKey a.ds ≤ dsKey b.ds

instance : DecidableRel rowLE := fun a b =>
  inferInstanceAs (Decidable (dsKey a.ds ≤ dsKey b.ds))

instance : IsTotal RRow rowLE := ⟨fun _ _ => le_total _ _⟩

instance : IsTrans RRow rowLE := ⟨fun _ _ _ => le_trans⟩

/-- Model of `reset_index(drop=True)`: replace the indices by `k, k+1, ...`. -/
def reindexFrom (k : ℤ) : List RRow → List RRow
  | [] => []
  | r :: rs => { r with idx := k } :: reindexFrom (k + 1) rs

def check_dataframe (df : RawTable) : RawTable × Except ChkError RawTable :=
  if df.rows.length = 0 then (df, .error .noRows)
  else if (df.rows.filter (fun r => yNotNull r.y)).length < 2 then (df, .error .fewRows)
  else if df.rows.any (fun r => !(yNotNull r.y)) then (df, .error .nanY)
  else
    let rows1 : List RRow := df.rows.map (fun r => { r with y := pdToNumeric r.y })
    if rows1.any (fun r => yIsInf r.y) then ({ df with rows := rows1 }, .error .infY)
    else if rows1.any (fun r => dsIsNull r.ds) then ({ df with rows := rows1 }, .error .nanDs)
    else
      let rows2 : List RRow := if rows1.all (fun r => dsIsInt r.ds)
        then rows1.map (fun r => { r with ds := dsAstypeStr r.ds })
        else rows1
      let rows3 : List RRow := rows2.map (fun r => { r with ds := pdToDatetime r.ds })
      if rows3.any (fun r => dsHasTz r.ds) then ({ df with rows := rows3 }, .error .tzDs)
      else if rows3.any (fun r => dsIsNull r.ds) then ({ df with rows := rows3 }, .error .nanDs)
      else
        ({ rows := rows3, idxNameDs := false },
         .ok { rows := reindexFrom 0 (List.insertionSort rowLE rows3),
               idxNameDs := false })

/-! ## ScaleEstimator and Normalizer: `init_data_params`, `normalize`
(df_utils.py lines 6-103)

Timestamps and values are real numbers here (timestamps as seconds since the
epoch; the subtraction and division of `normalize` are the same either way).
`numpy` reductions are modelled as on paper: `min`/`max` as folds over the
column, `mean` as sum over count, `std` as the square root of the mean
squared deviation (population standard deviation, numpy default `ddof=0`).
The `y` scaling parameters exist only when the table has a value column
(`if y in df`), modelled with `Option`; `normalize` reading absent parameters
(an `AttrDict` missing-key error) is the `none` result. -/

structure VTable where
  ds : List ℝ
  y : Option (List ℝ)

structure DataParams where
  t_start : ℝ
  t_scale : ℝ
  y_pars : Option (ℝ × ℝ)

noncomputable def npMin (l : List ℝ) : ℝ :=
  match l with
  | [] => 0
  | a :: t => t.foldl min a

noncomputable def npMax (l : List ℝ) : ℝ :=
  match l with
  | [] => 0
  | a :: t => t.foldl max a

noncomputable def npMean (l : List ℝ) : ℝ := l.sum / l.length

noncomputable def npStd (l : List ℝ) : ℝ :=
  Real.sqrt (((l.map (fun v => (v - npMean l) ^ 2)).sum) / l.length)

noncomputable def init_data_params (df : VTable) (normalize_y : Bool)
    (split_idx : Option ℕ) : DataParams :=
  match split_idx with
  | none =>
    { t_start := npMin df.ds
      t_scale := npMax df.ds - npMin df.ds
      y_pars := df.y.map (fun ys =>
        (if normalize_y then npMean ys else 0, if normalize_y then npStd ys else 1)) }
  | some k =>
    { t_start := npMin (df.ds.take k)
      t_scale := npMax (df.ds.take k) - npMin (df.ds.take k)
      y_pars := df.y.map (fun ys =>
        (if normalize_y then npMean (ys.take k) else 0,
         if normalize_y then npStd (ys.take k) else 1)) }

structure NormTable where
  ds : List ℝ
  y : Option (List ℝ)
  t : List ℝ
  y_scaled : Option (List ℝ)

noncomputable def normalize (df : VTable) (p : DataParams) : Option NormTable :=
  let t := df.ds.map (fun d => (d - p.t_start) / p.t_scale)
  match df.y with
  | none => some ⟨df.ds, none, t, none⟩
  | some ys =>
    match p.y_pars with
    | none => none
    | some q => some ⟨df.ds, some ys, t, some (ys.map (fun v => (v - q.1) / q.2))⟩

/-! ## Lemmas and claim theorems -/

theorem listSlice_length {α : Type} (x : List α) (a len : ℕ)
    (h : a + len ≤ x.length) : (listSlice x a len).length = len := by
  simp only [listSlice, List.length_take, List.length_drop]
  omega

theorem listSlice_getElem! {α : Type} [Inhabited α] (x : List α) (a len j : ℕ)
    (h : a + len ≤ x.length) (hj : j < len) :
    (listSlice x a len)[j]! = x[a + j]! := by
  have h1 : j < (listSlice x a len).length := by rw [listSlice_length x a len h]; exact hj
  have h2 : a + j < x.length := by omega
  rw [getElem!_pos (listSlice x a len) j h1, getElem!_pos x (a + j) h2]
  simp only [listSlice]
  rw [List.getElem_take, List.getElem_drop]

theorem range_map_getElem! {β : Type} [Inhabited β] (f : ℕ → β) (n i : ℕ)
    (h : i < n) : ((List.range n).map f)[i]! = f i := by
  have h1 : i < ((List.range n).map f).length := by simpa using h
  rw [getElem!_pos ((List.range n).map f) i h1]
  simp [List.getElem_map, List.getElem_range]

theorem map_getElem! {α β : Type} [Inhabited α] [Inhabited β] (f : α → β)
    (l : List α) (i : ℕ) (h : i < l.length) : (l.map f)[i]! = f l[i]! := by
  have h1 : i < (l.map f).length := by simpa using h
  rw [getElem!_pos (l.map f) i h1, getElem!_pos l i h, List.getElem_map]

theorem pyTrunc_eq_floor (q : ℚ) (h : 0 ≤ q) : pyTrunc q = ⌊q⌋ := by
  rw [pyTrunc, if_pos h, Rat.floor_def]
  have hnum : 0 ≤ q.num := Rat.num_nonneg.mpr h
  rw [Int.ofNat_ediv]
  congr 1
  exact Int.toNat_of_nonneg hnum

theorem pyTrunc_eq_ceil (q : ℚ) (h : q < 0) : pyTrunc q = ⌈q⌉ := by
  rw [pyTrunc, if_neg (not_le.mpr h)]
  have hq : (0 : ℚ) ≤ -q := by linarith
  have hnum : 0 ≤ (-q).num := Rat.num_nonneg.mpr hq
  have hden : (-q).den = q.den := Rat.neg_den q
  have hceil : ⌈q⌉ = -⌊-q⌋ := by rw [Int.floor_neg]; ring
  rw [hceil]
  congr 1
  rw [Rat.floor_def, ← hden, Int.ofNat_ediv]
  congr 1
  exact Int.toNat_of_nonneg hnum

/-- Claim C3 (amended): whenever the window configuration fits the data
(`n_samples ≥ 1`) and `valid_p` is a genuine fraction (`0 ≤ valid_p ≤ 1`),
the Splitter computes `n_train = n_samples - floor(n_samples * valid_p)`,
the training table is exactly rows `[0, n_train + n_lags)` of the source,
the validation table starts at row `n_train` when `inputs_overbleed` is true
and at row `n_train + n_lags` when it is false, and
`len(df_train) + len(df_val) = len(df) + (n_lags if overbleed else 0)`. -/
theorem claim_C3 {α : Type} (df : List α) (n_lags n_forecasts : ℕ) (valid_p : ℚ)
    (inputs_overbleed : Bool)
    (hfc : 1 ≤ n_forecasts)
    (hp0 : 0 ≤ valid_p) (hp1 : valid_p ≤ 1)
    (hns : 1 ≤ (df.length : ℤ) - n_lags + 1 - n_forecasts) :
    (split_df df n_lags n_forecasts valid_p inputs_overbleed).1 =
      df.take ((((df.length : ℤ) - n_lags + 1 - n_forecasts) -
        ⌊(((df.length : ℤ) - n_lags + 1 - n_forecasts : ℤ) : ℚ) * valid_p⌋).toNat + n_lags) ∧
    (split_df df n_lags n_forecasts valid_p inputs_overbleed).2 =
      df.drop ((((df.length : ℤ) - n_lags + 1 - n_forecasts) -
        ⌊(((df.length : ℤ) - n_lags + 1 - n_forecasts : ℤ) : ℚ) * valid_p⌋).toNat +
        (if inputs_overbleed then 0 else n_lags)) ∧
    ((split_df df n_lags n_forecasts valid_p inputs_overbleed).1.length : ℤ) +
      ((split_df df n_lags n_forecasts valid_p inputs_overbleed).2.length : ℤ) =
      (df.length : ℤ) + (if inputs_overbleed then (n_lags : ℤ) else 0) := by
  have hnn : (0 : ℤ) ≤ (df.length : ℤ) - n_lags + 1 - n_forecasts :=
    le_trans (by norm_num) hns
  have hq0 : (0 : ℚ) ≤ (((df.length : ℤ) - n_lags + 1 - n_forecasts : ℤ) : ℚ) * valid_p :=
    mul_nonneg (by exact_mod_cast hnn) hp0
  have hfl0 : 0 ≤ ⌊(((df.length : ℤ) - n_lags + 1 - n_forecasts : ℤ) : ℚ) * valid_p⌋ :=
    Int.floor_nonneg.mpr hq0
  have hfl1 : ⌊(((df.length : ℤ) - n_lags + 1 - n_forecasts : ℤ) : ℚ) * valid_p⌋ ≤
      (df.length : ℤ) - n_lags + 1 - n_forecasts := by
    have hle : (((df.length : ℤ) - n_lags + 1 - n_forecasts : ℤ) : ℚ) * valid_p ≤
        (((df.length : ℤ) - n_lags + 1 - n_forecasts : ℤ) : ℚ) := by
      calc (((df.length : ℤ) - n_lags + 1 - n_forecasts : ℤ) : ℚ) * valid_p
          ≤ (((df.length : ℤ) - n_lags + 1 - n_forecasts : ℤ) : ℚ) * 1 :=
            mul_le_mul_of_nonneg_left hp1 (by exact_mod_cast hnn)
        _ = (((df.length : ℤ) - n_lags + 1 - n_forecasts : ℤ) : ℚ) := mul_one _
    calc ⌊(((df.length : ℤ) - n_lags + 1 - n_forecasts : ℤ) : ℚ) * valid_p⌋
        ≤ ⌊(((df.length : ℤ) - n_lags + 1 - n_forecasts : ℤ) : ℚ)⌋ := Int.floor_le_floor hle
      _ = (df.length : ℤ) - n_lags + 1 - n_forecasts := Int.floor_intCast _
  cases inputs_overbleed with
  | true =>
    refine ⟨?_, ?_, ?_⟩ <;>
      simp only [split_df, pyTrunc_eq_floor _ hq0, pyResolve, List.length_take,
        List.length_drop, reduceIte] <;>
      split_ifs <;>
      first
        | omega
        | (congr 1; omega)
  | false =>
    refine ⟨?_, ?_, ?_⟩ <;>
      simp only [split_df, pyTrunc_eq_floor _ hq0, pyResolve, List.length_take,
        List.length_drop, reduceIte] <;>
      split_ifs <;>
      first
        | omega
        | (congr 1; omega)

/-- Witness for claim C3: a 10-row table with `n_lags = 3`, `n_forecasts = 1`,
`valid_p = 1/5`, `inputs_overbleed = true`. -/
theorem claim_C3_witness :
    (split_df ([0,1,2,3,4,5,6,7,8,9] : List ℕ) 3 1 (1/5) true).1 =
      ([0,1,2,3,4,5,6,7,8,9] : List ℕ).take ((((([0,1,2,3,4,5,6,7,8,9] : List ℕ).length : ℤ) - 3 + 1 - 1) -
        ⌊(((([0,1,2,3,4,5,6,7,8,9] : List ℕ).length : ℤ) - 3 + 1 - 1 : ℤ) : ℚ) * (1/5)⌋).toNat + 3) ∧
    (split_df ([0,1,2,3,4,5,6,7,8,9] : List ℕ) 3 1 (1/5) true).2 =
      ([0,1,2,3,4,5,6,7,8,9] : List ℕ).drop ((((([0,1,2,3,4,5,6,7,8,9] : List ℕ).length : ℤ) - 3 + 1 - 1) -
        ⌊(((([0,1,2,3,4,5,6,7,8,9] : List ℕ).length : ℤ) - 3 + 1 - 1 : ℤ) : ℚ) * (1/5)⌋).toNat +
        (if true then 0 else 3)) ∧
    ((split_df ([0,1,2,3,4,5,6,7,8,9] : List ℕ) 3 1 (1/5) true).1.length : ℤ) +
      ((split_df ([0,1,2,3,4,5,6,7,8,9] : List ℕ) 3 1 (1/5) true).2.length : ℤ) =
      ((([0,1,2,3,4,5,6,7,8,9] : List ℕ).length : ℤ)) + (if true then (3 : ℤ) else 0) :=
  claim_C3 ([0,1,2,3,4,5,6,7,8,9] : List ℕ) 3 1 (1/5) true
    (by norm_num) (by norm_num) (by norm_num) (by norm_num)

/-- Counterexample to claim C3 as stated: on a 2-row validated table with
`n_lags = 10`, `n_forecasts = 1`, `valid_p = 1/4`, `inputs_overbleed = true`
(a window configuration that does not fit the table), the slice arithmetic
degenerates, so `len(df_train) + len(df_val)` is 4, not
`len(df) + n_lags = 12` as the claim asserts for every table and lag count. -/
theorem claim_C3_counterexample :
    ¬ ((((split_df ([0,1] : List ℕ) 10 1 (1/4) true).1.length : ℤ)) +
        (((split_df ([0,1] : List ℕ) 10 1 (1/4) true).2.length : ℤ)) =
        ((([0,1] : List ℕ).length : ℤ)) + (10 : ℤ)) := by
  have harg : ((((([0,1] : List ℕ).length : ℤ) - (10 : ℕ) + 1 - (1 : ℕ) : ℤ) : ℚ) * (1/4)) = (-2 : ℚ) := by
    norm_num
  have htr : pyTrunc ((((([0,1] : List ℕ).length : ℤ) - (10 : ℕ) + 1 - (1 : ℕ) : ℤ) : ℚ) * (1/4)) = -2 := by
    rw [harg, pyTrunc_eq_ceil _ (by norm_num)]
    rw [show (-2 : ℚ) = ((-2 : ℤ) : ℚ) by norm_num, Int.ceil_intCast]
  have hsplit : split_df ([0,1] : List ℕ) 10 1 (1/4) true = (([0,1] : List ℕ), ([0,1] : List ℕ)) := by
    simp only [split_df, htr]
    decide
  rw [hsplit]
  decide

theorem append_getElem!_left {β : Type} [Inhabited β] (l₁ l₂ : List β) (i : ℕ)
    (h : i < l₁.length) : (l₁ ++ l₂)[i]! = l₁[i]! := by
  rw [getElem!_pos (l₁ ++ l₂) i (by simp; omega), getElem!_pos l₁ i h]
  rw [List.getElem_append_left]

theorem append_getElem!_right {β : Type} [Inhabited β] (l₁ l₂ : List β) (i : ℕ)
    (h1 : l₁.length ≤ i) (h2 : i - l₁.length < l₂.length) :
    (l₁ ++ l₂)[i]! = l₂[i - l₁.length]! := by
  rw [getElem!_pos (l₁ ++ l₂) i (by simp; omega), getElem!_pos l₂ _ h2]
  rw [List.getElem_append_right h1]

theorem flatPairs_length {β : Type} (f g : ℕ → β) (n : ℕ) :
    ((List.range n).flatMap (fun i => [f i, g i])).length = 2 * n := by
  induction n with
  | zero => simp
  | succ n ih =>
    rw [List.range_succ, List.flatMap_append]
    simp only [List.length_append, ih, List.flatMap_cons, List.flatMap_nil,
      List.append_nil, List.length_cons, List.length_nil]
    omega

theorem flatPairs_getElem! {β : Type} [Inhabited β] (f g : ℕ → β) (n k : ℕ) (hk : k < n) :
    (((List.range n).flatMap (fun i => [f i, g i]))[2*k]! = f k) ∧
    (((List.range n).flatMap (fun i => [f i, g i]))[2*k+1]! = g k) := by
  induction n with
  | zero => omega
  | succ n ih =>
    rw [List.range_succ, List.flatMap_append]
    have hlen : ((List.range n).flatMap (fun i => [f i, g i])).length = 2*n :=
      flatPairs_length f g n
    have h2 : (([n] : List ℕ).flatMap (fun i => [f i, g i])) = [f n, g n] := by simp
    by_cases h : k < n
    · constructor
      · rw [append_getElem!_left _ _ _ (by omega)]
        exact (ih h).1
      · rw [append_getElem!_left _ _ _ (by omega)]
        exact (ih h).2
    · have hk' : k = n := by omega
      subst hk'
      rw [h2]
      have hlen2 : ([f k, g k] : List β).length = 2 := by simp
      constructor
      · rw [append_getElem!_right _ _ _ (by omega) (by omega)]
        have hz : 2*k - ((List.range k).flatMap (fun i => [f i, g i])).length = 0 := by omega
        rw [hz]
        rfl
      · rw [append_getElem!_right _ _ _ (by omega) (by omega)]
        have hz : 2*k+1 - ((List.range k).flatMap (fun i => [f i, g i])).length = 1 := by omega
        rw [hz]
        rfl

theorem fourier_series_length (dates : List ℝ) (period : ℝ) (series_order : ℕ) :
    (fourier_series dates period series_order).length = dates.length := by
  simp [fourier_series]

/-- On success, every feature matrix produced by the seasonal loop has one row
per timestamp. -/
theorem seasonalLoop_lengths (dates : List ℝ) (stype : String) :
    ∀ (l : List (String × SeasonPeriod)) (feats : List (String × List (List ℝ))),
      seasonalLoop dates stype l = .ok feats →
      ∀ p ∈ feats, p.2.length = dates.length := by
  intro l
  induction l with
  | nil =>
    intro feats h p hp
    simp only [seasonalLoop] at h
    cases h
    simp at hp
  | cons hd rest ih =>
    intro feats h p hp
    obtain ⟨hdname, hdp⟩ := hd
    simp only [seasonalLoop] at h
    by_cases hr : 0 < hdp.resolution
    · rw [if_pos hr] at h
      by_cases hs : stype = "fourier"
      · rw [if_pos hs] at h
        cases hrec : seasonalLoop dates stype rest with
        | error e => rw [hrec] at h; simp [Except.map] at h
        | ok acc =>
          rw [hrec] at h
          simp only [Except.map] at h
          cases h
          rcases List.mem_cons.mp hp with heq | hmem2
          · subst heq
            exact fourier_series_length dates hdp.period hdp.resolution
          · exact ih acc hrec p hmem2
      · rw [if_neg hs] at h
        simp at h
    · rw [if_neg hr] at h
      exact ih feats h p hp

/-- On success, every configured period with positive resolution contributes
its fourier feature matrix to the result. -/
theorem seasonalLoop_mem (dates : List ℝ) (stype : String) :
    ∀ (l : List (String × SeasonPeriod)) (feats : List (String × List (List ℝ)))
      (name : String) (p : SeasonPeriod),
      seasonalLoop dates stype l = .ok feats → (name, p) ∈ l → 0 < p.resolution →
      (name, fourier_series dates p.period p.resolution) ∈ feats := by
  intro l
  induction l with
  | nil =>
    intro feats name p h hmem hres
    simp at hmem
  | cons hd rest ih =>
    intro feats name p h hmem hres
    obtain ⟨hdname, hdp⟩ := hd
    rw [List.mem_cons] at hmem
    simp only [seasonalLoop] at h
    by_cases hr : 0 < hdp.resolution
    · rw [if_pos hr] at h
      by_cases hs : stype = "fourier"
      · rw [if_pos hs] at h
        cases hrec : seasonalLoop dates stype rest with
        | error e => rw [hrec] at h; simp [Except.map] at h
        | ok acc =>
          rw [hrec] at h
          simp only [Except.map] at h
          cases h
          rcases hmem with heq | hmem2
          · injection heq with e1 e2
            subst e1
            subst e2
            exact List.mem_cons_self _ _
          · exact List.mem_cons_of_mem _ (ih acc name p hrec hmem2 hres)
      · rw [if_neg hs] at h
        simp at h
    · rw [if_neg hr] at h
      rcases hmem with heq | hmem2
      · injection heq with e1 e2
        subst e2
        exact absurd hres hr
      · exact ih feats name p h hmem2 hres

/-- Claim C2 (amended): when the window configuration does not fit the data
(`n_samples = len(table) - n_lags + 1 - n_forecasts < 1`, with `n_lags ≥ 1`
and the scaled-value column present), the Tabularizer does not raise any
error: it returns a result with zero samples (all arrays empty). -/
theorem claim_C2 {α : Type} [Inhabited α] (df : NTable α) (series : List α)
    (n_lags n_forecasts : ℕ) (predict_mode : Bool)
    (hy : df.y_scaled = some series) (hlag : 1 ≤ n_lags)
    (hns : (df.t.length : ℤ) - n_lags + 1 - n_forecasts < 1) :
    tabularize_univariate_datetime df none n_lags n_forecasts predict_mode =
      .ok ⟨[], some [], none, []⟩ := by
  have h0 : ((df.t.length : ℤ) - n_lags + 1 - n_forecasts).toNat = 0 := by omega
  simp only [tabularize_univariate_datetime, hy, h0, List.range_zero, List.map_nil,
    if_neg (by omega : ¬ n_lags = 0), if_pos (by omega : 0 < n_lags)]
  cases predict_mode <;> simp

/-- Witness for claim C2: a 6-row table with `n_lags = 5`, `n_forecasts = 5`
(`n_samples = -3 < 1`). -/
theorem claim_C2_witness :
    tabularize_univariate_datetime
      (⟨[0,1,2,3,4,5], [0,1,2,3,4,5], some [10,11,12,13,14,15]⟩ : NTable ℚ)
      none 5 5 false = .ok ⟨[], some [], none, []⟩ :=
  claim_C2 (⟨[0,1,2,3,4,5], [0,1,2,3,4,5], some [10,11,12,13,14,15]⟩ : NTable ℚ)
    [10,11,12,13,14,15] 5 5 false rfl (by norm_num) (by norm_num)

/-- Counterexample to claim C2 as stated: with `n_lags = 5`, `n_forecasts = 5`
on a 6-row table (`n_samples = -3 < 1`), the Tabularizer does not fail with
any error: the call succeeds (there is no `n_samples` check in the code). -/
theorem claim_C2_counterexample :
    (tabularize_univariate_datetime
      (⟨[0,1,2,3,4,5], [0,1,2,3,4,5], some [10,11,12,13,14,15]⟩ : NTable ℚ)
      none 5 5 false).isOk = true := by
  rfl

/-- Claim C6: with the scaled-value column present, if `n_lags = 0` the
Tabularizer fails (the failed `assert n_forecasts == 1`, a `ConfigError` in
the taxonomy of the specification) whenever `n_forecasts ≠ 1`; and with
`n_forecasts = 1` it succeeds with `n_samples = len(table)` samples, the time
feature of sample `i` being exactly the normalized time `t` of row `i`. -/
theorem claim_C6 {α : Type} [Inhabited α] (df : NTable α) (series : List α)
    (hy : df.y_scaled = some series) :
    (∀ (cfg : Option SeasonConfig) (n_forecasts : ℕ) (pm : Bool), n_forecasts ≠ 1 →
      tabularize_univariate_datetime df cfg 0 n_forecasts pm = .error .assertError) ∧
    (∃ out, tabularize_univariate_datetime df none 0 1 false = .ok out ∧
      out.time.length = df.t.length ∧
      (∀ i < df.t.length, out.time[i]! = [df.t[i]!]) ∧
      out.targets.length = df.t.length) := by
  constructor
  · intro cfg n_forecasts pm hnf
    simp only [tabularize_univariate_datetime, hy, if_neg hnf, reduceIte]
  · have h0 : ((df.t.length : ℤ) - (0 : ℕ) + 1 - (1 : ℕ)).toNat = df.t.length := by omega
    have hout : tabularize_univariate_datetime df none 0 1 false =
        .ok ⟨df.t.map (fun v => [v]), none, none,
          (List.range df.t.length).map (fun i => listSlice series (i + 0) 1)⟩ := by
      simp only [tabularize_univariate_datetime, hy, reduceIte, h0]
      simp
    refine ⟨_, hout, ?_, ?_, ?_⟩
    · simp
    · intro i hi
      exact map_getElem! (fun v => [v]) df.t i hi
    · simp

/-- Witness for claim C6: a 2-row table with the scaled-value column. -/
theorem claim_C6_witness :
    (∀ (cfg : Option SeasonConfig) (n_forecasts : ℕ) (pm : Bool), n_forecasts ≠ 1 →
      tabularize_univariate_datetime (⟨[0,1], [0,1], some [5,6]⟩ : NTable ℚ)
        cfg 0 n_forecasts pm = .error .assertError) ∧
    (∃ out, tabularize_univariate_datetime (⟨[0,1], [0,1], some [5,6]⟩ : NTable ℚ)
        none 0 1 false = .ok out ∧
      out.time.length = (⟨[0,1], [0,1], some [5,6]⟩ : NTable ℚ).t.length ∧
      (∀ i < (⟨[0,1], [0,1], some [5,6]⟩ : NTable ℚ).t.length,
        out.time[i]! = [(⟨[0,1], [0,1], some [5,6]⟩ : NTable ℚ).t[i]!]) ∧
      out.targets.length = (⟨[0,1], [0,1], some [5,6]⟩ : NTable ℚ).t.length) :=
  claim_C6 (⟨[0,1], [0,1], some [5,6]⟩ : NTable ℚ) [5,6] rfl

/-- Claim C10 (amended): in `predict_mode` the Tabularizer still requires the
scaled-value column (the code reads it unconditionally); when that column is
present (with `n_lags = 0`, `n_forecasts = 1`) it succeeds, returning
placeholder targets of the same shape as the time array (their contents are
uninitialized memory in the code, carrying no meaning). -/
theorem claim_C10 {α : Type} [Inhabited α] (df : NTable α) (series : List α)
    (hy : df.y_scaled = some series) :
    ∃ out, tabularize_univariate_datetime df none 0 1 true = .ok out ∧
      out.targets.length = out.time.length ∧
      ∀ i < out.time.length, out.targets[i]!.length = out.time[i]!.length := by
  have hout : tabularize_univariate_datetime df none 0 1 true =
      .ok ⟨df.t.map (fun v => [v]), none, none,
        (df.t.map (fun v => [v])).map (fun r => r.map (fun _ => (default : α)))⟩ := by
    simp only [tabularize_univariate_datetime, hy, reduceIte]
    simp
  refine ⟨_, hout, ?_, ?_⟩
  · simp
  · intro i hi
    simp only at hi ⊢
    rw [map_getElem! _ _ i (by simpa using hi)]
    simp

/-- Witness for claim C10 (amended): a 1-row table carrying the scaled-value
column, tabularized in predict mode. -/
theorem claim_C10_witness :
    ∃ out, tabularize_univariate_datetime (⟨[0], [0], some [1]⟩ : NTable ℚ)
        none 0 1 true = .ok out ∧
      out.targets.length = out.time.length ∧
      ∀ i < out.time.length, out.targets[i]!.length = out.time[i]!.length :=
  claim_C10 (⟨[0], [0], some [1]⟩ : NTable ℚ) [1] rfl

/-- Claim C1: for a normalized table with `n_lags ≥ 1`, `n_forecasts ≥ 1` and
`n_samples = len(table) - n_lags + 1 - n_forecasts ≥ 1` (written `N` below),
the Tabularizer produces exactly `N` samples; for every sample `i` the lag
vector is the scaled-value sequence at positions `[i, i + n_lags)`, the target
vector is the scaled values at `[i + n_lags, i + n_lags + n_forecasts)`, and
the time slice and each seasonality slice cover source positions
`[n_lags + i, n_lags + i + n_forecasts)`; all returned arrays share the
leading dimension `N`. -/
theorem claim_C1 {α : Type} [Inhabited α] (df : NTable α) (cfg : SeasonConfig)
    (series : List α) (feats : List (String × List (List ℝ)))
    (n_lags n_forecasts N : ℕ)
    (hy : df.y_scaled = some series)
    (hlen : series.length = df.t.length)
    (hds : df.ds.length = df.t.length)
    (hfeats : seasonal_features_from_dates df.ds cfg = .ok feats)
    (hlag : 1 ≤ n_lags) (hfc : 1 ≤ n_forecasts)
    (hN : (N : ℤ) = (df.t.length : ℤ) - n_lags + 1 - n_forecasts)
    (hN1 : 1 ≤ N) :
    ∃ out, tabularize_univariate_datetime df (some cfg) n_lags n_forecasts false = .ok out ∧
      out.time.length = N ∧
      (∀ i < N, out.time[i]!.length = n_forecasts ∧
        ∀ j < n_forecasts, (out.time[i]!)[j]! = df.t[n_lags + i + j]!) ∧
      (∃ L, out.lags = some L ∧ L.length = N ∧
        ∀ i < N, L[i]!.length = n_lags ∧ ∀ j < n_lags, (L[i]!)[j]! = series[i + j]!) ∧
      out.targets.length = N ∧
      (∀ i < N, out.targets[i]!.length = n_forecasts ∧
        ∀ j < n_forecasts, (out.targets[i]!)[j]! = series[i + n_lags + j]!) ∧
      (∃ S, out.seasonalities = some S ∧ S.length = feats.length ∧
        ∀ k < feats.length, S[k]!.1 = feats[k]!.1 ∧ S[k]!.2.length = N ∧
          ∀ i < N, (S[k]!.2)[i]!.length = n_forecasts ∧
            ∀ j < n_forecasts, ((S[k]!.2)[i]!)[j]! = feats[k]!.2[n_lags + i + j]!) := by
  have htoNat : ((df.t.length : ℤ) - n_lags + 1 - n_forecasts).toNat = N := by omega
  have hout : tabularize_univariate_datetime df (some cfg) n_lags n_forecasts false =
      .ok ⟨(List.range N).map (fun i => listSlice df.t (n_lags + i) n_forecasts),
           some ((List.range N).map (fun i => listSlice series i n_lags)),
           some (feats.map (fun p =>
             (p.1, (List.range N).map (fun i => listSlice p.2 (n_lags + i) n_forecasts)))),
           (List.range N).map (fun i => listSlice series (i + n_lags) n_forecasts)⟩ := by
    simp only [tabularize_univariate_datetime, hy, hfeats, htoNat, Except.map,
      if_neg (by omega : ¬ n_lags = 0), if_pos (by omega : 0 < n_lags), reduceIte]
    simp
  refine ⟨_, hout, ?_, ?_, ?_, ?_, ?_, ?_⟩
  · simp
  · intro i hi
    rw [range_map_getElem! _ N i hi]
    have hb : (n_lags + i) + n_forecasts ≤ df.t.length := by omega
    exact ⟨listSlice_length _ _ _ hb,
      fun j hj => listSlice_getElem! df.t (n_lags + i) n_forecasts j hb hj⟩
  · refine ⟨_, rfl, by simp, ?_⟩
    intro i hi
    rw [range_map_getElem! _ N i hi]
    have hb : i + n_lags ≤ series.length := by omega
    exact ⟨listSlice_length _ _ _ hb,
      fun j hj => listSlice_getElem! series i n_lags j hb hj⟩
  · simp
  · intro i hi
    rw [range_map_getElem! _ N i hi]
    have hb : (i + n_lags) + n_forecasts ≤ series.length := by omega
    exact ⟨listSlice_length _ _ _ hb,
      fun j hj => listSlice_getElem! series (i + n_lags) n_forecasts j hb hj⟩
  · refine ⟨_, rfl, by simp, ?_⟩
    intro k hk
    rw [map_getElem! _ feats k hk]
    have hm : feats[k]! ∈ feats := by
      rw [getElem!_pos feats k hk]
      exact List.getElem_mem _
    have hml : feats[k]!.2.length = df.t.length := by
      have hl := seasonalLoop_lengths df.ds cfg.stype cfg.periods feats hfeats feats[k]! hm
      rw [hl, hds]
    refine ⟨rfl, by simp, ?_⟩
    intro i hi
    rw [range_map_getElem! _ N i hi]
    have hb : (n_lags + i) + n_forecasts ≤ feats[k]!.2.length := by omega
    exact ⟨listSlice_length _ _ _ hb,
      fun j hj => listSlice_getElem! feats[k]!.2 (n_lags + i) n_forecasts j hb hj⟩

/-- Witness for claim C1: a 4-row table with `n_lags = 2`, `n_forecasts = 1`
(`n_samples = 2`), with a fourier season configuration with no periods. -/
theorem claim_C1_witness :
    ∃ out, tabularize_univariate_datetime
        (⟨[0,1,2,3], [0,1,2,3], some [10,11,12,13]⟩ : NTable ℚ)
        (some ⟨"fourier", []⟩) 2 1 false = .ok out ∧
      out.time.length = 2 ∧
      (∀ i < 2, out.time[i]!.length = 1 ∧
        ∀ j < 1, (out.time[i]!)[j]! =
          (⟨[0,1,2,3], [0,1,2,3], some [10,11,12,13]⟩ : NTable ℚ).t[2 + i + j]!) ∧
      (∃ L, out.lags = some L ∧ L.length = 2 ∧
        ∀ i < 2, L[i]!.length = 2 ∧
          ∀ j < 2, (L[i]!)[j]! = ([10,11,12,13] : List ℚ)[i + j]!) ∧
      out.targets.length = 2 ∧
      (∀ i < 2, out.targets[i]!.length = 1 ∧
        ∀ j < 1, (out.targets[i]!)[j]! = ([10,11,12,13] : List ℚ)[i + 2 + j]!) ∧
      (∃ S, out.seasonalities = some S ∧
        S.length = ([] : List (String × List (List ℝ))).length ∧
        ∀ k < ([] : List (String × List (List ℝ))).length,
          S[k]!.1 = ([] : List (String × List (List ℝ)))[k]!.1 ∧ S[k]!.2.length = 2 ∧
          ∀ i < 2, (S[k]!.2)[i]!.length = 1 ∧
            ∀ j < 1, ((S[k]!.2)[i]!)[j]! =
              ([] : List (String × List (List ℝ)))[k]!.2[2 + i + j]!) :=
  claim_C1 (⟨[0,1,2,3], [0,1,2,3], some [10,11,12,13]⟩ : NTable ℚ)
    ⟨"fourier", []⟩ [10,11,12,13] [] 2 1 2 rfl (by simp) (by simp) rfl
    (by norm_num) (by norm_num) (by simp) (by norm_num)

/-- Claim C5: for every timestamp sequence and every configured period with
resolution greater than 0 (on a successful run of the SeasonalityFeaturizer),
the result contains a feature matrix for that period of shape
`(len(timestamps), 2 * resolution)` whose columns alternate sin and cos of
`2 * pi * k * t_days / period` for harmonic index `k = 1..resolution`, where
`t_days` is elapsed days since 1970-01-01; each harmonic pair satisfies
`sin^2 + cos^2 = 1` at every row. -/
theorem claim_C5 (dates : List ℝ) (cfg : SeasonConfig)
    (feats : List (String × List (List ℝ))) (name : String) (p : SeasonPeriod)
    (hok : seasonal_features_from_dates dates cfg = .ok feats)
    (hmem : (name, p) ∈ cfg.periods) (hres : 0 < p.resolution) :
    (name, fourier_series dates p.period p.resolution) ∈ feats ∧
    (fourier_series dates p.period p.resolution).length = dates.length ∧
    ∀ j < dates.length,
      (fourier_series dates p.period p.resolution)[j]!.length = 2 * p.resolution ∧
      ∀ k < p.resolution,
        ((fourier_series dates p.period p.resolution)[j]!)[2*k]! =
          Real.sin (2 * Real.pi * ((k : ℝ) + 1) * (dates[j]! / (3600 * 24)) / p.period) ∧
        ((fourier_series dates p.period p.resolution)[j]!)[2*k+1]! =
          Real.cos (2 * Real.pi * ((k : ℝ) + 1) * (dates[j]! / (3600 * 24)) / p.period) ∧
        ((fourier_series dates p.period p.resolution)[j]!)[2*k]! ^ 2 +
          ((fourier_series dates p.period p.resolution)[j]!)[2*k+1]! ^ 2 = 1 := by
  refine ⟨seasonalLoop_mem dates cfg.stype cfg.periods feats name p hok hmem hres,
    fourier_series_length dates p.period p.resolution, ?_⟩
  intro j hj
  have hrow : (fourier_series dates p.period p.resolution)[j]! =
      (List.range p.resolution).flatMap (fun i =>
        [Real.sin (2 * ((i : ℝ) + 1) * Real.pi * (dates[j]! / (3600 * 24)) / p.period),
         Real.cos (2 * ((i : ℝ) + 1) * Real.pi * (dates[j]! / (3600 * 24)) / p.period)]) := by
    simp only [fourier_series]
    exact map_getElem! _ dates j hj
  constructor
  · rw [hrow]
    exact flatPairs_length _ _ p.resolution
  · intro k hk
    have hfp := flatPairs_getElem!
      (fun i => Real.sin (2 * ((i : ℝ) + 1) * Real.pi * (dates[j]! / (3600 * 24)) / p.period))
      (fun i => Real.cos (2 * ((i : ℝ) + 1) * Real.pi * (dates[j]! / (3600 * 24)) / p.period))
      p.resolution k hk
    have harg : 2 * ((k : ℝ) + 1) * Real.pi * (dates[j]! / (3600 * 24)) / p.period =
        2 * Real.pi * ((k : ℝ) + 1) * (dates[j]! / (3600 * 24)) / p.period := by
      ring
    refine ⟨?_, ?_, ?_⟩
    · rw [hrow, hfp.1]
      exact congrArg Real.sin harg
    · rw [hrow, hfp.2]
      exact congrArg Real.cos harg
    · rw [hrow, hfp.1, hfp.2]
      exact Real.sin_sq_add_cos_sq _

/-- Witness for claim C5: the weekly period (`period = 7`, `resolution = 3`)
over seven consecutive daily timestamps, matching the example of the
specification (a matrix of shape `(7, 6)`). -/
theorem claim_C5_witness :
    ("weekly", fourier_series ([0, 86400, 172800, 259200, 345600, 432000, 518400] : List ℝ)
        (⟨7, 3⟩ : SeasonPeriod).period (⟨7, 3⟩ : SeasonPeriod).resolution) ∈
      [("weekly", fourier_series ([0, 86400, 172800, 259200, 345600, 432000, 518400] : List ℝ) 7 3)] ∧
    (fourier_series ([0, 86400, 172800, 259200, 345600, 432000, 518400] : List ℝ)
        (⟨7, 3⟩ : SeasonPeriod).period (⟨7, 3⟩ : SeasonPeriod).resolution).length =
      ([0, 86400, 172800, 259200, 345600, 432000, 518400] : List ℝ).length ∧
    ∀ j < ([0, 86400, 172800, 259200, 345600, 432000, 518400] : List ℝ).length,
      (fourier_series ([0, 86400, 172800, 259200, 345600, 432000, 518400] : List ℝ)
          (⟨7, 3⟩ : SeasonPeriod).period (⟨7, 3⟩ : SeasonPeriod).resolution)[j]!.length =
        2 * (⟨7, 3⟩ : SeasonPeriod).resolution ∧
      ∀ k < (⟨7, 3⟩ : SeasonPeriod).resolution,
        ((fourier_series ([0, 86400, 172800, 259200, 345600, 432000, 518400] : List ℝ)
            (⟨7, 3⟩ : SeasonPeriod).period (⟨7, 3⟩ : SeasonPeriod).resolution)[j]!)[2*k]! =
          Real.sin (2 * Real.pi * ((k : ℝ) + 1) *
            (([0, 86400, 172800, 259200, 345600, 432000, 518400] : List ℝ)[j]! / (3600 * 24)) /
            (⟨7, 3⟩ : SeasonPeriod).period) ∧
        ((fourier_series ([0, 86400, 172800, 259200, 345600, 432000, 518400] : List ℝ)
            (⟨7, 3⟩ : SeasonPeriod).period (⟨7, 3⟩ : SeasonPeriod).resolution)[j]!)[2*k+1]! =
          Real.cos (2 * Real.pi * ((k : ℝ) + 1) *
            (([0, 86400, 172800, 259200, 345600, 432000, 518400] : List ℝ)[j]! / (3600 * 24)) /
            (⟨7, 3⟩ : SeasonPeriod).period) ∧
        ((fourier_series ([0, 86400, 172800, 259200, 345600, 432000, 518400] : List ℝ)
            (⟨7, 3⟩ : SeasonPeriod).period (⟨7, 3⟩ : SeasonPeriod).resolution)[j]!)[2*k]! ^ 2 +
          ((fourier_series ([0, 86400, 172800, 259200, 345600, 432000, 518400] : List ℝ)
              (⟨7, 3⟩ : SeasonPeriod).period (⟨7, 3⟩ : SeasonPeriod).resolution)[j]!)[2*k+1]! ^ 2 = 1 :=
  claim_C5 ([0, 86400, 172800, 259200, 345600, 432000, 518400] : List ℝ)
    ⟨"fourier", [("weekly", ⟨7, 3⟩)]⟩
    [("weekly", fourier_series ([0, 86400, 172800, 259200, 345600, 432000, 518400] : List ℝ) 7 3)]
    "weekly" ⟨7, 3⟩ rfl (List.mem_singleton.mpr rfl) (by norm_num)

/-- Counterexample to claim C10 as stated: in `predict_mode`, a table carrying
the time column but no scaled-value column makes the Tabularizer fail with a
`KeyError` (the code reads the column before checking `predict_mode`), rather
than succeed. -/
theorem claim_C10_counterexample :
    tabularize_univariate_datetime (⟨[0], [0], none⟩ : NTable ℚ) none 0 1 true =
      .error .keyError := by
  rfl

theorem map_coerceY_id (l : List RRow) :
    l.map (fun r => { r with y := pdToNumeric r.y }) = l := by
  induction l with
  | nil => rfl
  | cons a t ih =>
    cases a
    simp [pdToNumeric, ih]

theorem dsKey_astype (c : DsCell) : dsKey (dsAstypeStr c) = dsKey c := by
  cases c <;> rfl

theorem dsKey_toDatetime (c : DsCell) : dsKey (pdToDatetime c) = dsKey c := by
  cases c <;> rfl

theorem reindexFrom_length (k : ℤ) (l : List RRow) :
    (reindexFrom k l).length = l.length := by
  induction l generalizing k with
  | nil => rfl
  | cons a t ih => simp [reindexFrom, ih]

theorem reindexFrom_map_ds (k : ℤ) (l : List RRow) :
    (reindexFrom k l).map (fun r => r.ds) = l.map (fun r => r.ds) := by
  induction l generalizing k with
  | nil => rfl
  | cons a t ih => simp [reindexFrom, ih]

theorem reindexFrom_map_key (k : ℤ) (l : List RRow) :
    (reindexFrom k l).map (fun r => dsKey r.ds) = l.map (fun r => dsKey r.ds) := by
  induction l generalizing k with
  | nil => rfl
  | cons a t ih => simp [reindexFrom, ih]

theorem reindexFrom_idx (k : ℤ) (l : List RRow) :
    (reindexFrom k l).map (fun r => r.idx) =
      (List.range l.length).map (fun i : ℕ => k + (i : ℤ)) := by
  induction l generalizing k with
  | nil => rfl
  | cons a t ih =>
    simp only [reindexFrom, List.map_cons, List.length_cons, List.range_succ_eq_map,
      List.map_map]
    rw [ih (k + 1)]
    congr 1
    · simp
    · apply List.map_congr_left
      intro i _
      simp only [Function.comp_apply]
      push_cast
      ring

theorem reindexFrom_idem (k : ℤ) (l : List RRow) :
    reindexFrom k (reindexFrom k l) = reindexFrom k l := by
  induction l generalizing k with
  | nil => rfl
  | cons a t ih => simp [reindexFrom, ih]

theorem mem_reindexFrom (l : List RRow) (k : ℤ) (r : RRow) (h : r ∈ reindexFrom k l) :
    ∃ s ∈ l, r.ds = s.ds ∧ r.y = s.y := by
  induction l generalizing k with
  | nil => simp [reindexFrom] at h
  | cons a t ih =>
    simp only [reindexFrom, List.mem_cons] at h
    rcases h with rfl | h2
    · exact ⟨a, List.mem_cons_self a t, rfl, rfl⟩
    · obtain ⟨s, hs, h1, h2⟩ := ih (k + 1) h2
      exact ⟨s, List.mem_cons_of_mem a hs, h1, h2⟩

theorem sorted_reindexFrom (k : ℤ) (l : List RRow) (h : List.Sorted rowLE l) :
    List.Sorted rowLE (reindexFrom k l) := by
  have h1 : List.Pairwise (fun a b => a ≤ b) ((reindexFrom k l).map (fun r => dsKey r.ds)) := by
    rw [reindexFrom_map_key, List.pairwise_map]
    exact h
  rw [List.pairwise_map] at h1
  exact h1

theorem map_coerceDs_id (l : List RRow) (h : ∀ r ∈ l, pdToDatetime r.ds = r.ds) :
    l.map (fun r => { r with ds := pdToDatetime r.ds }) = l := by
  induction l with
  | nil => rfl
  | cons a t ih =>
    simp only [List.map_cons]
    rw [h a (List.mem_cons_self a t), ih (fun r hr => h r (List.mem_cons_of_mem a hr))]

/-- Inversion of a successful run of the Validator: the accepted input has at
least 2 rows, all values present, finite; the final state of the input object
is the coerced (unsorted, original-index) table with the index name cleared,
and the returned table is its stable sort by datetime, re-indexed from 0. -/
theorem check_dataframe_ok_inv (df st res : RawTable)
    (h : check_dataframe df = (st, .ok res)) :
    2 ≤ df.rows.length ∧
    (∀ r ∈ df.rows, yNotNull r.y = true) ∧
    (∀ r ∈ df.rows, yIsInf r.y = false) ∧
    ∃ rows3 : List RRow,
      rows3 = ((if df.rows.all (fun r => dsIsInt r.ds) = true
                then df.rows.map (fun r => { r with ds := dsAstypeStr r.ds })
                else df.rows).map (fun r => { r with ds := pdToDatetime r.ds })) ∧
      (∀ r ∈ rows3, ∃ d, r.ds = .dtC d false) ∧
      (∀ r ∈ rows3, yNotNull r.y = true) ∧
      (∀ r ∈ rows3, yIsInf r.y = false) ∧
      rows3.length = df.rows.length ∧
      st = { rows := rows3, idxNameDs := false } ∧
      res = { rows := reindexFrom 0 (List.insertionSort rowLE rows3), idxNameDs := false } := by
  simp only [check_dataframe, map_coerceY_id] at h
  by_cases hc1 : df.rows.length = 0
  · rw [if_pos hc1] at h
    simp at h
  rw [if_neg hc1] at h
  by_cases hc2 : (df.rows.filter fun r => yNotNull r.y).length < 2
  · rw [if_pos hc2] at h
    simp at h
  rw [if_neg hc2] at h
  by_cases hc3 : df.rows.any (fun r => !(yNotNull r.y)) = true
  · rw [if_pos hc3] at h
    simp at h
  rw [if_neg hc3] at h
  by_cases hc4 : df.rows.any (fun r => yIsInf r.y) = true
  · rw [if_pos hc4] at h
    simp at h
  rw [if_neg hc4] at h
  by_cases hc5 : df.rows.any (fun r => dsIsNull r.ds) = true
  · rw [if_pos hc5] at h
    simp at h
  rw [if_neg hc5] at h
  by_cases hc7 : ((if df.rows.all (fun r => dsIsInt r.ds) = true
      then df.rows.map (fun r => { r with ds := dsAstypeStr r.ds })
      else df.rows).map (fun r => { r with ds := pdToDatetime r.ds })).any
        (fun r => dsHasTz r.ds) = true
  · rw [if_pos hc7] at h
    simp at h
  rw [if_neg hc7] at h
  by_cases hc8 : ((if df.rows.all (fun r => dsIsInt r.ds) = true
      then df.rows.map (fun r => { r with ds := dsAstypeStr r.ds })
      else df.rows).map (fun r => { r with ds := pdToDatetime r.ds })).any
        (fun r => dsIsNull r.ds) = true
  · rw [if_pos hc8] at h
    simp at h
  rw [if_neg hc8] at h
  rw [Prod.mk.injEq] at h
  obtain ⟨hst, hres⟩ := h
  rw [Except.ok.injEq] at hres
  have hylen : (df.rows.filter fun r => yNotNull r.y).length ≤ df.rows.length :=
    List.length_filter_le _ _
  have hally : ∀ r ∈ df.rows, yNotNull r.y = true := by
    intro r hr
    by_contra hcon
    apply hc3
    rw [List.any_eq_true]
    refine ⟨r, hr, ?_⟩
    cases hb : yNotNull r.y with
    | true => exact absurd hb hcon
    | false => rfl
  have hallinf : ∀ r ∈ df.rows, yIsInf r.y = false := by
    intro r hr
    cases hb : yIsInf r.y with
    | false => rfl
    | true => exact absurd (List.any_eq_true.mpr ⟨r, hr, hb⟩) hc4
  have hpre : ∀ s ∈ (if df.rows.all (fun r => dsIsInt r.ds) = true
      then df.rows.map (fun r => { r with ds := dsAstypeStr r.ds })
      else df.rows), yNotNull s.y = true ∧ yIsInf s.y = false := by
    intro s hs
    split_ifs at hs with hint
    · rw [List.mem_map] at hs
      obtain ⟨u, hu, rfl⟩ := hs
      exact ⟨hally u hu, hallinf u hu⟩
    · exact ⟨hally s hs, hallinf s hs⟩
  refine ⟨by omega, hally, hallinf, _, rfl, ?_, ?_, ?_, ?_, hst.symm, hres.symm⟩
  · -- every timestamp of the coerced rows is a timezone-free datetime
    intro r hr
    rw [List.mem_map] at hr
    obtain ⟨s, hs, rfl⟩ := hr
    cases hds : s.ds with
    | intC n => exact ⟨n, rfl⟩
    | strC n => exact ⟨n, rfl⟩
    | nanC =>
      exfalso
      apply hc8
      rw [List.any_eq_true]
      refine ⟨{ s with ds := pdToDatetime s.ds }, List.mem_map.mpr ⟨s, hs, rfl⟩, ?_⟩
      show dsIsNull (pdToDatetime s.ds) = true
      rw [hds]
      rfl
    | dtC d tz =>
      cases tz with
      | false => exact ⟨d, rfl⟩
      | true =>
        exfalso
        apply hc7
        rw [List.any_eq_true]
        refine ⟨{ s with ds := pdToDatetime s.ds }, List.mem_map.mpr ⟨s, hs, rfl⟩, ?_⟩
        show dsHasTz (pdToDatetime s.ds) = true
        rw [hds]
        rfl
  · intro r hr
    rw [List.mem_map] at hr
    obtain ⟨s, hs, rfl⟩ := hr
    exact (hpre s hs).1
  · intro r hr
    rw [List.mem_map] at hr
    obtain ⟨s, hs, rfl⟩ := hr
    exact (hpre s hs).2
  · rw [List.length_map]
    split_ifs with hint
    · rw [List.length_map]
    · rfl

/-- Claim C7 (amended): for every raw table the Validator accepts, its output
has non-decreasing (sorted, but not necessarily strictly increasing, since
duplicate timestamps are never rejected) timestamps and a dense zero-based
row index. Re-validating the output always succeeds and returns a table with
the same timestamp sequence and again a dense zero-based index; and when the
timestamps of the output are strictly increasing (no duplicates), the
Validator is idempotent on it: re-validation returns the very same table (a
fixed point). The fixed point is asserted only under strictly increasing
timestamps because the order of equal-timestamp rows after a re-sort is not
guaranteed by pandas (its default quicksort is not stable); with distinct
timestamp keys every correct sort returns the unique sorted order, so there
the conclusion does not depend on the tie order this model picks. -/
theorem claim_C7 (df st res : RawTable) (h : check_dataframe df = (st, .ok res)) :
    List.Sorted (fun a b : ℤ => a ≤ b) (res.rows.map (fun r => dsKey r.ds)) ∧
    res.rows.map (fun r => r.idx) = (List.range res.rows.length).map (fun i : ℕ => (i : ℤ)) ∧
    (∃ st2 res2, check_dataframe res = (st2, .ok res2) ∧
      res2.rows.map (fun r => dsKey r.ds) = res.rows.map (fun r => dsKey r.ds) ∧
      res2.rows.map (fun r => r.idx) =
        (List.range res2.rows.length).map (fun i : ℕ => (i : ℤ))) ∧
    (List.Pairwise (fun a b : ℤ => a < b) (res.rows.map (fun r => dsKey r.ds)) →
      check_dataframe res = (res, .ok res)) := by
  obtain ⟨hlen2, hys, hyinf, rows3, hrows3, hclean, hy3, hinf3, hlen3, hst, hres⟩ :=
    check_dataframe_ok_inv df st res h
  have hsorted : List.Sorted rowLE (List.insertionSort rowLE rows3) :=
    List.sorted_insertionSort rowLE rows3
  have hres_rows : res.rows = reindexFrom 0 (List.insertionSort rowLE rows3) := by
    rw [hres]
  have hmemres : ∀ r ∈ res.rows, ∃ s ∈ rows3, r.ds = s.ds ∧ r.y = s.y := by
    intro r hr
    rw [hres_rows] at hr
    obtain ⟨s, hs, h1, h2⟩ := mem_reindexFrom (List.insertionSort rowLE rows3) 0 r hr
    exact ⟨s, (List.mem_insertionSort rowLE).mp hs, h1, h2⟩
  have hcleanres : ∀ r ∈ res.rows, ∃ d, r.ds = .dtC d false := by
    intro r hr
    obtain ⟨s, hs, h1, _⟩ := hmemres r hr
    obtain ⟨d, hd⟩ := hclean s hs
    exact ⟨d, by rw [h1, hd]⟩
  have hyres : ∀ r ∈ res.rows, yNotNull r.y = true := by
    intro r hr
    obtain ⟨s, hs, _, h2⟩ := hmemres r hr
    rw [h2]
    exact hy3 s hs
  have hinfres : ∀ r ∈ res.rows, yIsInf r.y = false := by
    intro r hr
    obtain ⟨s, hs, _, h2⟩ := hmemres r hr
    rw [h2]
    exact hinf3 s hs
  have hlenres : res.rows.length = df.rows.length := by
    rw [hres_rows, reindexFrom_length, List.length_insertionSort, hlen3]
  have hsortedres : List.Sorted rowLE res.rows := by
    rw [hres_rows]
    exact sorted_reindexFrom 0 _ hsorted
  have hkeys : List.Sorted (fun a b : ℤ => a ≤ b) (res.rows.map (fun r => dsKey r.ds)) := by
    show List.Pairwise (fun a b : ℤ => a ≤ b) (res.rows.map (fun r => dsKey r.ds))
    rw [List.pairwise_map]
    exact hsortedres
  have hidx : res.rows.map (fun r => r.idx) =
      (List.range res.rows.length).map (fun i : ℕ => (i : ℤ)) := by
    rw [hres_rows, reindexFrom_idx, reindexFrom_length]
    apply List.map_congr_left
    intro i _
    simp
  have hfix : check_dataframe res = (res, .ok res) := by
    have hc1 : ¬ (res.rows.length = 0) := by omega
    have hfilter : res.rows.filter (fun r => yNotNull r.y) = res.rows :=
      List.filter_eq_self.mpr hyres
    have hc2 : ¬ ((res.rows.filter fun r => yNotNull r.y).length < 2) := by
      rw [hfilter]
      omega
    have hc3 : ¬ (res.rows.any (fun r => !(yNotNull r.y)) = true) := by
      rw [List.any_eq_true]
      rintro ⟨r, hr, hb⟩
      rw [hyres r hr] at hb
      simp at hb
    have hmap1 : res.rows.map (fun r => { r with y := pdToNumeric r.y }) = res.rows :=
      map_coerceY_id _
    have hc4 : ¬ (res.rows.any (fun r => yIsInf r.y) = true) := by
      rw [List.any_eq_true]
      rintro ⟨r, hr, hb⟩
      rw [hinfres r hr] at hb
      simp at hb
    have hc5 : ¬ (res.rows.any (fun r => dsIsNull r.ds) = true) := by
      rw [List.any_eq_true]
      rintro ⟨r, hr, hb⟩
      obtain ⟨d, hd⟩ := hcleanres r hr
      rw [hd] at hb
      simp [dsIsNull] at hb
    have hc6 : ¬ (res.rows.all (fun r => dsIsInt r.ds) = true) := by
      rw [List.all_eq_true]
      intro hall
      obtain ⟨r, hr⟩ := List.exists_mem_of_length_pos (by omega : 0 < res.rows.length)
      obtain ⟨d, hd⟩ := hcleanres r hr
      have hb := hall r hr
      rw [hd] at hb
      simp [dsIsInt] at hb
    have hmap3 : res.rows.map (fun r => { r with ds := pdToDatetime r.ds }) = res.rows := by
      apply map_coerceDs_id
      intro r hr
      obtain ⟨d, hd⟩ := hcleanres r hr
      rw [hd]
      rfl
    have hc7 : ¬ (res.rows.any (fun r => dsHasTz r.ds) = true) := by
      rw [List.any_eq_true]
      rintro ⟨r, hr, hb⟩
      obtain ⟨d, hd⟩ := hcleanres r hr
      rw [hd] at hb
      simp [dsHasTz] at hb
    have hsortfix : List.insertionSort rowLE res.rows = res.rows :=
      List.Sorted.insertionSort_eq hsortedres
    have hreindexfix : reindexFrom 0 res.rows = res.rows := by
      rw [hres_rows]
      exact reindexFrom_idem 0 _
    have hresid : res.idxNameDs = false := by rw [hres]
    simp only [check_dataframe]
    rw [if_neg hc1, if_neg hc2, if_neg hc3, hmap1, if_neg hc4, if_neg hc5, if_neg hc6,
      hmap3, if_neg hc7, if_neg hc5, hsortfix, hreindexfix]
    rw [← hresid]
  exact ⟨hkeys, hidx, ⟨res, res, hfix, rfl, hidx⟩, fun _ => hfix⟩

/-- Witness for claim C7 (amended): an unsorted 2-row table with datetime
cells, a scrambled index and the index named after the timestamp column; its
accepted output has the distinct timestamps 0 and 1, so the fixed-point part
applies. -/
theorem claim_C7_witness :
    List.Sorted (fun a b : ℤ => a ≤ b)
      ((⟨[⟨0, .dtC 0 false, .num 4⟩, ⟨1, .dtC 1 false, .num 3⟩], false⟩ : RawTable).rows.map
        (fun r => dsKey r.ds)) ∧
    (⟨[⟨0, .dtC 0 false, .num 4⟩, ⟨1, .dtC 1 false, .num 3⟩], false⟩ : RawTable).rows.map
        (fun r => r.idx) =
      (List.range (⟨[⟨0, .dtC 0 false, .num 4⟩, ⟨1, .dtC 1 false, .num 3⟩], false⟩ :
        RawTable).rows.length).map (fun i : ℕ => (i : ℤ)) ∧
    (∃ st2 res2,
      check_dataframe (⟨[⟨0, .dtC 0 false, .num 4⟩, ⟨1, .dtC 1 false, .num 3⟩], false⟩ :
          RawTable) = (st2, .ok res2) ∧
      res2.rows.map (fun r => dsKey r.ds) =
        (⟨[⟨0, .dtC 0 false, .num 4⟩, ⟨1, .dtC 1 false, .num 3⟩], false⟩ :
          RawTable).rows.map (fun r => dsKey r.ds) ∧
      res2.rows.map (fun r => r.idx) =
        (List.range res2.rows.length).map (fun i : ℕ => (i : ℤ))) ∧
    (List.Pairwise (fun a b : ℤ => a < b)
        ((⟨[⟨0, .dtC 0 false, .num 4⟩, ⟨1, .dtC 1 false, .num 3⟩], false⟩ :
          RawTable).rows.map (fun r => dsKey r.ds)) →
      check_dataframe (⟨[⟨0, .dtC 0 false, .num 4⟩, ⟨1, .dtC 1 false, .num 3⟩], false⟩ :
          RawTable) =
        ((⟨[⟨0, .dtC 0 false, .num 4⟩, ⟨1, .dtC 1 false, .num 3⟩], false⟩ : RawTable),
         .ok (⟨[⟨0, .dtC 0 false, .num 4⟩, ⟨1, .dtC 1 false, .num 3⟩], false⟩ : RawTable))) :=
  claim_C7 (⟨[⟨7, .dtC 1 false, .num 3⟩, ⟨3, .dtC 0 false, .num 4⟩], true⟩ : RawTable)
    (⟨[⟨7, .dtC 1 false, .num 3⟩, ⟨3, .dtC 0 false, .num 4⟩], false⟩ : RawTable)
    (⟨[⟨0, .dtC 0 false, .num 4⟩, ⟨1, .dtC 1 false, .num 3⟩], false⟩ : RawTable)
    (by rfl)

/-- Counterexample to claim C7 as stated: the Validator accepts a table with
two equal timestamps (nothing rejects duplicates), and the accepted output
does not have strictly increasing timestamps. -/
theorem claim_C7_counterexample :
    (check_dataframe (⟨[⟨0, .dtC 5 false, .num 1⟩, ⟨1, .dtC 5 false, .num 2⟩], false⟩ :
        RawTable)).2 =
      .ok (⟨[⟨0, .dtC 5 false, .num 1⟩, ⟨1, .dtC 5 false, .num 2⟩], false⟩ : RawTable) ∧
    ¬ List.Pairwise (fun a b : ℤ => a < b)
        ((⟨[⟨0, .dtC 5 false, .num 1⟩, ⟨1, .dtC 5 false, .num 2⟩], false⟩ :
          RawTable).rows.map (fun r => dsKey r.ds)) :=
  ⟨by rfl, by decide⟩

/-- Claim C9 (amended): the Validator does mutate its input table in place:
the type coercions of the value and timestamp columns and the clearing of the
index name are applied to the caller's object. The mutation is exactly that:
afterwards the input object still has its original length, row order, indices,
timestamp keys and values (sorting and re-indexing do not touch it); the
sorted, zero-indexed table is returned as a separate new table. -/
theorem claim_C9 (df st res : RawTable) (h : check_dataframe df = (st, .ok res)) :
    st.rows.length = df.rows.length ∧
    st.rows.map (fun r => r.idx) = df.rows.map (fun r => r.idx) ∧
    st.rows.map (fun r => dsKey r.ds) = df.rows.map (fun r => dsKey r.ds) ∧
    st.rows.map (fun r => r.y) = df.rows.map (fun r => r.y) ∧
    st.idxNameDs = false ∧
    res.idxNameDs = false := by
  obtain ⟨hlen2, hys, hyinf, rows3, hrows3, hclean, hy3, hinf3, hlen3, hst, hres⟩ :=
    check_dataframe_ok_inv df st res h
  have hstrows : st.rows = rows3 := by rw [hst]
  refine ⟨by rw [hstrows, hlen3], ?_, ?_, ?_, by rw [hst], by rw [hres]⟩
  · rw [hstrows, hrows3]
    split_ifs with hint
    · simp [List.map_map, Function.comp]
    · simp [List.map_map, Function.comp]
  · rw [hstrows, hrows3]
    split_ifs with hint
    · simp only [List.map_map]
      apply List.map_congr_left
      intro r _
      simp only [Function.comp_apply]
      rw [show dsKey (pdToDatetime (dsAstypeStr r.ds)) = dsKey r.ds from by
        rw [dsKey_toDatetime, dsKey_astype]]
    · simp only [List.map_map]
      apply List.map_congr_left
      intro r _
      simp only [Function.comp_apply]
      rw [show dsKey (pdToDatetime r.ds) = dsKey r.ds from dsKey_toDatetime r.ds]
  · rw [hstrows, hrows3]
    split_ifs with hint
    · simp [List.map_map, Function.comp]
    · simp [List.map_map, Function.comp]

/-- Witness for claim C9 (amended): a 2-row table with int64-encoded dates
out of order; the final state of the input keeps its order and indices but
carries coerced datetime cells, and the returned table is the sorted one. -/
theorem claim_C9_witness :
    (⟨[⟨0, .dtC 20 false, .num 1⟩, ⟨1, .dtC 10 false, .num 2⟩], false⟩ :
        RawTable).rows.length =
      (⟨[⟨0, .intC 20, .num 1⟩, ⟨1, .intC 10, .num 2⟩], false⟩ : RawTable).rows.length ∧
    (⟨[⟨0, .dtC 20 false, .num 1⟩, ⟨1, .dtC 10 false, .num 2⟩], false⟩ :
        RawTable).rows.map (fun r => r.idx) =
      (⟨[⟨0, .intC 20, .num 1⟩, ⟨1, .intC 10, .num 2⟩], false⟩ : RawTable).rows.map
        (fun r => r.idx) ∧
    (⟨[⟨0, .dtC 20 false, .num 1⟩, ⟨1, .dtC 10 false, .num 2⟩], false⟩ :
        RawTable).rows.map (fun r => dsKey r.ds) =
      (⟨[⟨0, .intC 20, .num 1⟩, ⟨1, .intC 10, .num 2⟩], false⟩ : RawTable).rows.map
        (fun r => dsKey r.ds) ∧
    (⟨[⟨0, .dtC 20 false, .num 1⟩, ⟨1, .dtC 10 false, .num 2⟩], false⟩ :
        RawTable).rows.map (fun r => r.y) =
      (⟨[⟨0, .intC 20, .num 1⟩, ⟨1, .intC 10, .num 2⟩], false⟩ : RawTable).rows.map
        (fun r => r.y) ∧
    (⟨[⟨0, .dtC 20 false, .num 1⟩, ⟨1, .dtC 10 false, .num 2⟩], false⟩ :
        RawTable).idxNameDs = false ∧
    (⟨[⟨0, .dtC 10 false, .num 2⟩, ⟨1, .dtC 20 false, .num 1⟩], false⟩ :
        RawTable).idxNameDs = false :=
  claim_C9 (⟨[⟨0, .intC 20, .num 1⟩, ⟨1, .intC 10, .num 2⟩], false⟩ : RawTable)
    (⟨[⟨0, .dtC 20 false, .num 1⟩, ⟨1, .dtC 10 false, .num 2⟩], false⟩ : RawTable)
    (⟨[⟨0, .dtC 10 false, .num 2⟩, ⟨1, .dtC 20 false, .num 1⟩], false⟩ : RawTable)
    (by rfl)

/-- Counterexample to claim C9 as stated: after validating a table whose
dates are int64-encoded, the original table object is changed (its timestamp
column now holds parsed datetimes): the final state of the input differs from
the input. -/
theorem claim_C9_counterexample :
    (check_dataframe (⟨[⟨0, .intC 20, .num 1⟩, ⟨1, .intC 10, .num 2⟩], false⟩ :
        RawTable)).1 ≠
      (⟨[⟨0, .intC 20, .num 1⟩, ⟨1, .intC 10, .num 2⟩], false⟩ : RawTable) := by
  decide

theorem foldl_min_spec (l : List ℝ) : ∀ a : ℝ,
    (l.foldl min a = a ∨ l.foldl min a ∈ l) ∧ l.foldl min a ≤ a ∧
      ∀ x ∈ l, l.foldl min a ≤ x := by
  induction l with
  | nil =>
    intro a
    simp
  | cons b t ih =>
    intro a
    simp only [List.foldl_cons]
    obtain ⟨hmem, hle, hall⟩ := ih (min a b)
    refine ⟨?_, le_trans hle (min_le_left a b), ?_⟩
    · rcases hmem with hcase | hcase
      · rcases le_total a b with hab | hba
        · left
          rw [hcase, min_eq_left hab]
        · right
          rw [hcase, min_eq_right hba]
          exact List.mem_cons_self b t
      · right
        exact List.mem_cons_of_mem b hcase
    · intro x hx
      rcases List.mem_cons.mp hx with rfl | hx2
      · exact le_trans hle (min_le_right a x)
      · exact hall x hx2

theorem foldl_max_spec (l : List ℝ) : ∀ a : ℝ,
    (l.foldl max a = a ∨ l.foldl max a ∈ l) ∧ a ≤ l.foldl max a ∧
      ∀ x ∈ l, x ≤ l.foldl max a := by
  induction l with
  | nil =>
    intro a
    simp
  | cons b t ih =>
    intro a
    simp only [List.foldl_cons]
    obtain ⟨hmem, hle, hall⟩ := ih (max a b)
    refine ⟨?_, le_trans (le_max_left a b) hle, ?_⟩
    · rcases hmem with hcase | hcase
      · rcases le_total a b with hab | hba
        · right
          rw [hcase, max_eq_right hab]
          exact List.mem_cons_self b t
        · left
          rw [hcase, max_eq_left hba]
      · right
        exact List.mem_cons_of_mem b hcase
    · intro x hx
      rcases List.mem_cons.mp hx with rfl | hx2
      · exact le_trans (le_max_right a x) hle
      · exact hall x hx2

theorem npMin_spec (l : List ℝ) (h : l ≠ []) : npMin l ∈ l ∧ ∀ x ∈ l, npMin l ≤ x := by
  match l with
  | [] => exact absurd rfl h
  | a :: t =>
    obtain ⟨hmem, hle, hall⟩ := foldl_min_spec t a
    refine ⟨?_, ?_⟩
    · rcases hmem with hcase | hcase
      · rw [npMin, hcase]
        exact List.mem_cons_self a t
      · rw [npMin]
        exact List.mem_cons_of_mem a hcase
    · intro x hx
      rcases List.mem_cons.mp hx with rfl | hx2
      · exact hle
      · exact hall x hx2

theorem npMax_spec (l : List ℝ) (h : l ≠ []) : npMax l ∈ l ∧ ∀ x ∈ l, x ≤ npMax l := by
  match l with
  | [] => exact absurd rfl h
  | a :: t =>
    obtain ⟨hmem, hle, hall⟩ := foldl_max_spec t a
    refine ⟨?_, ?_⟩
    · rcases hmem with hcase | hcase
      · rw [npMax, hcase]
        exact List.mem_cons_self a t
      · rw [npMax]
        exact List.mem_cons_of_mem a hcase
    · intro x hx
      rcases List.mem_cons.mp hx with rfl | hx2
      · exact hle
      · exact hall x hx2

/-- Claim C8: with no cut-index, the ScaleEstimator returns `time_origin`
equal to the minimum timestamp, `time_span` equal to the maximum minus the
minimum timestamp, and, when a value field is present, `value_shift` and
`value_scale` equal to the mean and (population) standard deviation of the
values when normalization is enabled, and to 0 and 1 when it is disabled. -/
theorem claim_C8 (df : VTable) (ys : List ℝ) (hds : df.ds ≠ []) (hy : df.y = some ys) :
    ((init_data_params df true none).t_start ∈ df.ds ∧
      ∀ x ∈ df.ds, (init_data_params df true none).t_start ≤ x) ∧
    (∃ M, M ∈ df.ds ∧ (∀ x ∈ df.ds, x ≤ M) ∧
      (init_data_params df true none).t_scale = M - (init_data_params df true none).t_start) ∧
    (init_data_params df true none).y_pars =
      some (npMean ys, npStd ys) ∧
    (init_data_params df false none).t_start = (init_data_params df true none).t_start ∧
    (init_data_params df false none).t_scale = (init_data_params df true none).t_scale ∧
    (init_data_params df false none).y_pars = some (0, 1) := by
  obtain ⟨hminmem, hminle⟩ := npMin_spec df.ds hds
  obtain ⟨hmaxmem, hmaxle⟩ := npMax_spec df.ds hds
  refine ⟨⟨hminmem, hminle⟩, ⟨npMax df.ds, hmaxmem, hmaxle, rfl⟩, ?_, rfl, rfl, ?_⟩
  · simp [init_data_params, hy]
  · simp [init_data_params, hy]

/-- Witness for claim C8: a 3-row table with values present. -/
theorem claim_C8_witness :
    ((init_data_params ⟨[2, 0, 1], some [1, 3]⟩ true none).t_start ∈
        ([2, 0, 1] : List ℝ) ∧
      ∀ x ∈ ([2, 0, 1] : List ℝ),
        (init_data_params ⟨[2, 0, 1], some [1, 3]⟩ true none).t_start ≤ x) ∧
    (∃ M, M ∈ ([2, 0, 1] : List ℝ) ∧ (∀ x ∈ ([2, 0, 1] : List ℝ), x ≤ M) ∧
      (init_data_params ⟨[2, 0, 1], some [1, 3]⟩ true none).t_scale =
        M - (init_data_params ⟨[2, 0, 1], some [1, 3]⟩ true none).t_start) ∧
    (init_data_params ⟨[2, 0, 1], some [1, 3]⟩ true none).y_pars =
      some (npMean [1, 3], npStd [1, 3]) ∧
    (init_data_params ⟨[2, 0, 1], some [1, 3]⟩ false none).t_start =
      (init_data_params ⟨[2, 0, 1], some [1, 3]⟩ true none).t_start ∧
    (init_data_params ⟨[2, 0, 1], some [1, 3]⟩ false none).t_scale =
      (init_data_params ⟨[2, 0, 1], some [1, 3]⟩ true none).t_scale ∧
    (init_data_params ⟨[2, 0, 1], some [1, 3]⟩ false none).y_pars = some (0, 1) :=
  claim_C8 ⟨[2, 0, 1], some [1, 3]⟩ [1, 3] (by simp) rfl

/-- Claim C4: composing ScaleEstimator and Normalizer is invertible on every
row, provided `time_span` and `value_scale` are non-zero:
`t * time_span + time_origin` recovers the timestamp, and
`y_scaled * value_scale + value_shift` recovers the value. -/
theorem claim_C4 (df : VTable) (ys : List ℝ) (sh sc : ℝ)
    (hy : df.y = some ys)
    (hp : (init_data_params df true none).y_pars = some (sh, sc))
    (hts : (init_data_params df true none).t_scale ≠ 0)
    (hsc : sc ≠ 0) :
    ∃ nt, normalize df (init_data_params df true none) = some nt ∧
      nt.t.length = df.ds.length ∧
      (∀ i < df.ds.length,
        nt.t[i]! * (init_data_params df true none).t_scale +
          (init_data_params df true none).t_start = df.ds[i]!) ∧
      ∃ ysc, nt.y_scaled = some ysc ∧ ysc.length = ys.length ∧
        ∀ i < ys.length, ysc[i]! * sc + sh = ys[i]! := by
  have hnorm : normalize df (init_data_params df true none) =
      some ⟨df.ds, some ys,
        df.ds.map (fun d => (d - (init_data_params df true none).t_start) /
          (init_data_params df true none).t_scale),
        some (ys.map (fun v => (v - sh) / sc))⟩ := by
    rw [normalize, hy, hp]
  refine ⟨_, hnorm, by simp, ?_, _, rfl, by simp, ?_⟩
  · intro i hi
    rw [map_getElem! _ df.ds i hi]
    field_simp
  · intro i hi
    rw [map_getElem! _ ys i hi]
    field_simp

/-- Witness for claim C4: timestamps `[0, 1]` (span 1) and values `[1, 3]`
(mean 2, standard deviation 1). -/
theorem claim_C4_witness :
    ∃ nt, normalize ⟨[0, 1], some [1, 3]⟩
        (init_data_params ⟨[0, 1], some [1, 3]⟩ true none) = some nt ∧
      nt.t.length = ([0, 1] : List ℝ).length ∧
      (∀ i < ([0, 1] : List ℝ).length,
        nt.t[i]! * (init_data_params ⟨[0, 1], some [1, 3]⟩ true none).t_scale +
          (init_data_params ⟨[0, 1], some [1, 3]⟩ true none).t_start =
            ([0, 1] : List ℝ)[i]!) ∧
      ∃ ysc, nt.y_scaled = some ysc ∧ ysc.length = ([1, 3] : List ℝ).length ∧
        ∀ i < ([1, 3] : List ℝ).length,
          ysc[i]! * npStd [1, 3] + npMean [1, 3] = ([1, 3] : List ℝ)[i]! := by
  have hm : npMean ([1, 3] : List ℝ) = 2 := by
    simp [npMean]
    norm_num
  have hs : npStd ([1, 3] : List ℝ) = 1 := by
    simp only [npStd, hm, List.map_cons, List.map_nil, List.sum_cons, List.sum_nil,
      List.length_cons, List.length_nil]
    norm_num
  have hts : (init_data_params ⟨[0, 1], some [1, 3]⟩ true none).t_scale ≠ 0 := by
    simp only [init_data_params, npMax, npMin, List.foldl_cons, List.foldl_nil]
    norm_num
  exact claim_C4 ⟨[0, 1], some [1, 3]⟩ [1, 3] (npMean [1, 3]) (npStd [1, 3]) rfl
    (by simp [init_data_params]) hts (by rw [hs]; norm_num)

end SimplePrognoz
